import Mathlib

/-!
gpt-proxy: the authorization gate, the credential-rewriting director and the
reloading of the user list.

A shallow embedding of `main.go`.  Go strings are modelled by `String` (header
values and tokens that are valid UTF-8; the prefix `"Bearer "` is ASCII, so a
prefix of characters is a prefix of bytes), the `http.Header` map by a function
from (canonical) keys to value lists, the response writer and the package-level
variables by explicit records that are passed through the handlers.
-/

namespace GptProxy

/-! ## Constants of `main.go` -/

/-- Constant `AuthHeader`. -/
def AuthHeader : String := "Authorization"

/-- Constant `OrgHeader`. -/
def OrgHeader : String := "OpenAI-Organization"

/-- Constant `TokenPrefix`. -/
def TokenPrefix : String := "Bearer "

/-- Constant `OpenAIHost`. -/
def OpenAIHost : String := "https://api.openai.com"

/-- Constant `http.StatusForbidden`. -/
def StatusForbidden : Nat := 403

/-! ## Library functions used by the gate -/

/-- Go `strings.HasPrefix(s, p)`: `len(s) >= len(p) && s[:len(p)] == p`. -/
def HasPrefix (s p : String) : Bool :=
  decide (p.data.length ≤ s.data.length) && decide (s.data.take p.data.length = p.data)

/-- Go `strings.TrimPrefix(s, p)`: `s[len(p):]` when `s` starts with `p`,
otherwise `s` itself.  The prefix is removed at most once. -/
def TrimPrefix (s p : String) : String :=
  if HasPrefix s p then String.mk (s.data.drop p.data.length) else s

/-- The `lo.Contains(collection, element)` helper of samber/lo: a linear scan
that returns true at the first equal element. -/
def Contains (collection : List String) (element : String) : Bool :=
  match collection with
  | [] => false
  | item :: rest => if item = element then true else Contains rest element

/-- The bytes accepted in a header field name (`validHeaderFieldByte` of
net/textproto): the RFC 7230 token characters. -/
def validHeaderFieldByte (c : Char) : Bool :=
  c.isAlphanum ||
    [33, 35, 36, 37, 38, 39, 42, 43, 45, 46, 94, 95, 96, 124, 126].contains c.toNat

/-- The loop of `canonicalMIMEHeaderKey`: the first letter and every letter
after a hyphen is upper-cased, every other letter is lower-cased. -/
def canonicalLoop : Bool → List Char → List Char
  | _, [] => []
  | upper, c :: cs =>
    let c1 := if upper && c.isLower then c.toUpper
              else if !upper && c.isUpper then c.toLower else c
    c1 :: canonicalLoop (c1 = '-') cs

/-- Go `textproto.CanonicalMIMEHeaderKey`: a key with a byte that is not valid
in a field name is returned unchanged, any other key is put in canonical
case. -/
def CanonicalMIMEHeaderKey (s : String) : String :=
  if s.data.all validHeaderFieldByte then String.mk (canonicalLoop true s.data) else s

/-! ## Requests and responses -/

/-- Go `http.Header`, a `map[string][]string`: a missing key is `none`. -/
def Header : Type := String → Option (List String)

/-- Go `Header.Get(key)`: the first value stored under the canonical form of
`key`, or the empty string when there is none. -/
def Header.Get (h : Header) (key : String) : String :=
  match h (CanonicalMIMEHeaderKey key) with
  | some (v :: _) => v
  | _ => ""

/-- Go `Header.Set(key, value)`: the entry of the canonical form of `key` is
replaced by the single value `value`. -/
def Header.Set (h : Header) (key value : String) : Header :=
  fun k => if k = CanonicalMIMEHeaderKey key then some [value] else h k

/-- The parts of Go `url.URL` that the proxy reads or preserves. -/
structure URL where
  Scheme : String
  Host : String
  Path : String
  RawQuery : String
  deriving DecidableEq, Repr

/-- The parts of Go `http.Request` that the handlers read or write. -/
structure Request where
  Method : String
  URL : URL
  Host : String
  Header : Header
  Body : String

/-- The observable state of Go `http.ResponseWriter`: whether the status line
has been written, the status, the response headers and the body bytes written
so far. -/
structure ResponseWriter where
  wroteHeader : Bool
  status : Nat
  header : List (String × String)
  body : String
  deriving DecidableEq, Repr

/-- The response writer as the server hands it to a handler. -/
def ResponseWriter.fresh : ResponseWriter :=
  { wroteHeader := false, status := 0, header := [], body := "" }

/-- Go `ResponseWriter.WriteHeader(code)`: the first call fixes the status, a
later one is ignored. -/
def ResponseWriter.WriteHeader (w : ResponseWriter) (code : Nat) : ResponseWriter :=
  if w.wroteHeader then w else { w with wroteHeader := true, status := code }

/-- What `checkAuth` has done when it returns: the response writer as the gate
itself left it, the request (which the handler holds by pointer) as the gate
itself left it, and the request it passed to `proxy.ServeHTTP`, if it called
it. -/
structure GateResult where
  w : ResponseWriter
  request : Request
  forwarded : Option Request

/-- The handler `checkAuth` of `main`, with the package variable `users` as an
explicit argument. -/
def checkAuth (users : List String) (w : ResponseWriter) (r : Request) : GateResult :=
  let authKey := r.Header.Get "Authorization"
  if authKey = "" then
    { w := w.WriteHeader StatusForbidden, request := r, forwarded := none }
  else
    let authToken := TrimPrefix authKey TokenPrefix
    if !Contains users authToken then
      { w := w.WriteHeader StatusForbidden, request := r, forwarded := none }
    else
      { w := w, request := r, forwarded := some r }

/-- A request whose only header is `Authorization: h`. -/
def requestWithAuth (h : String) : Request :=
  { Method := "GET",
    URL := { Scheme := "", Host := "", Path := "/v1/models", RawQuery := "" },
    Host := "proxy.local",
    Header := fun k => if k = "Authorization" then some [h] else none,
    Body := "" }

/-! ## The director installed by `NewProxy` -/

/-- The configuration held by viper: the keys of `config.toml` that the program
reads.  A key that is not set reads as the empty string or the empty list. -/
structure Config where
  users : List String
  port : String
  token : String
  org : String
  deriving DecidableEq, Repr

/-- The statements of the director that follow the call of the base director:
the host is set, then each of the two credential headers is set when the value
read from the configuration is not empty. -/
def rewriteCredentials (u : URL) (cfg : Config) (r : Request) : Request :=
  let r1 := { r with Host := u.Host }
  let r2 := if cfg.token.length > 0 then
      { r1 with Header := r1.Header.Set AuthHeader (TokenPrefix ++ cfg.token) }
    else r1
  if cfg.org.length > 0 then { r2 with Header := r2.Header.Set OrgHeader cfg.org } else r2

/-- The function assigned to `proxy.Director`: the base director of the
single-host reverse proxy runs first, then the credentials are rewritten.  The
configuration is read at every call. -/
def Director (base : Request → Request) (u : URL) (cfg : Config) (r : Request) : Request :=
  rewriteCredentials u cfg (base r)

/-- The function `NewProxy`, as far as the director is concerned.  `urlParse`
stands for `url.Parse` and `singleHostDirector` for the director that
`httputil.NewSingleHostReverseProxy` builds for a target. -/
def NewProxy (urlParse : String → Except String URL)
    (singleHostDirector : URL → Request → Request) (targetHost : String) :
    Except String (Config → Request → Request) :=
  match urlParse targetHost with
  | .error err => .error err
  | .ok u => .ok (Director (singleHostDirector u) u)

/-- The value of `url.Parse(OpenAIHost)`. -/
def upstreamURL : URL :=
  { Scheme := "https", Host := "api.openai.com", Path := "", RawQuery := "" }

/-- A parser that knows the one URL the program parses. -/
def parseUpstream (s : String) : Except String URL :=
  if s = OpenAIHost then .ok upstreamURL else .error "parse error"

/-- A base director that points the request URL at the target. -/
def pointAt (u : URL) (r : Request) : Request :=
  { r with URL := { r.URL with Scheme := u.Scheme, Host := u.Host } }

/-! ## Loading and reloading the user list -/

/-- Go `fsnotify.Event`; `Op` is a bit mask. -/
structure Event where
  Name : String
  Op : Nat
  deriving DecidableEq, Repr

/-- Constant `fsnotify.Create`. -/
def Create : Nat := 1

/-- Constant `fsnotify.Write`. -/
def Write : Nat := 2

/-- Constant `fsnotify.Remove`. -/
def Remove : Nat := 4

/-- Constant `fsnotify.Rename`. -/
def Rename : Nat := 8

/-- Constant `fsnotify.Chmod`. -/
def Chmod : Nat := 16

/-- The package-level state: viper's configuration, the variable `users` and
the lines written to the log. -/
structure State where
  config : Config
  users : List String
  log : List String
  deriving DecidableEq, Repr

/-- How a piece of start-up or callback code ends: it returns and the process
goes on, or `log.Fatal` has written its line and ended the process. -/
inductive Outcome where
  | running (s : State)
  | exited (s : State)
  deriving DecidableEq, Repr

/-- Go `viper.ReadInConfig`: `file` is what reading and parsing `config.toml`
gives at this moment.  A failure leaves the configuration as it was. -/
def ReadInConfig (file : Except String Config) (s : State) : Except String State :=
  match file with
  | .error err => .error err
  | .ok cfg => .ok { s with config := cfg }

/-- The locked assignment `users = viper.GetStringSlice("users")`. -/
def loadUsers (s : State) : State :=
  { s with users := s.config.users }

/-- Go `log.Printf`, appending one line to the log. -/
def logPrintf (line : String) (s : State) : State :=
  { s with log := s.log ++ [line] }

/-- Go `log.Fatal(errors.Wrap(err, "read config failed"))`: the line is
written and the process exits. -/
def logFatal (err : String) (s : State) : Outcome :=
  .exited (logPrintf ("read config failed: " ++ err) s)

/-- The callback given to `viper.OnConfigChange`. -/
def onConfigChange (ev : Event) (file : Except String Config) (s : State) : Outcome :=
  if ev.Op ≠ Write then
    match ReadInConfig file s with
    | .error err => logFatal err s
    | .ok s1 =>
      let s2 := loadUsers s1
      .running (logPrintf ("config changed, user amount: " ++ toString s2.users.length) s2)
  else
    .running s

/-- The part of `init` that follows the registration of the callback. -/
def init (file : Except String Config) (s : State) : Outcome :=
  match ReadInConfig file s with
  | .error err => logFatal err s
  | .ok s1 =>
    let s2 := loadUsers s1
    .running (logPrintf ("load user amount: " ++ toString s2.users.length) s2)

/-- The state before `init` runs: nothing configured, `users` nil. -/
def State.start : State :=
  { config := { users := [], port := "", token := "", org := "" }, users := [], log := [] }

/-- The user list of an outcome: after `log.Fatal` there is no process to hold
one. -/
def Outcome.users : Outcome → Option (List String)
  | .running s => some s.users
  | .exited _ => none

/-! ## The locking discipline around `users` -/

/-- The operations on `lock` and `users` that a code path performs. -/
inductive SyncOp where
  | Lock
  | Unlock
  | RLock
  | RUnlock
  | ReadUsers
  | WriteUsers
  deriving DecidableEq, Repr

/-- The operations of the reload block of the callback (and of the same block
in `init`): the assignment is made under the write lock, `len(users)` is read
for the log line after the lock is released. -/
def reloadOps : List SyncOp :=
  [SyncOp.Lock, SyncOp.WriteUsers, SyncOp.Unlock, SyncOp.ReadUsers]

/-- The operations of `checkAuth`: `lo.Contains(users, authToken)` reads
`users`; the handler never calls a method of `lock`. -/
def checkAuthOps : List SyncOp :=
  [SyncOp.ReadUsers]

/-- The number of reads of `users` that a code path makes while it holds
neither the read lock nor the write lock; `held` says whether it holds one
now. -/
def unguardedReads : Bool → List SyncOp → Nat
  | _, [] => 0
  | _, SyncOp.Lock :: ops => unguardedReads true ops
  | _, SyncOp.RLock :: ops => unguardedReads true ops
  | _, SyncOp.Unlock :: ops => unguardedReads false ops
  | _, SyncOp.RUnlock :: ops => unguardedReads false ops
  | held, SyncOp.ReadUsers :: ops => (if held then 0 else 1) + unguardedReads held ops
  | held, SyncOp.WriteUsers :: ops => unguardedReads held ops

/-- Two goroutines and the `sync.RWMutex` between them: the operations each
has left, who holds the write lock, who holds a read lock, and whether a read
of `users` has happened while the other goroutine held the write lock. -/
structure Sys where
  left0 : List SyncOp
  left1 : List SyncOp
  writer : Option Bool
  readers : List Bool
  readDuringWrite : Bool
  deriving DecidableEq, Repr

/-- One step of goroutine `t` (`false` is the first, `true` the second): its
next operation runs if the mutex allows it; `none` when the goroutine is
blocked or has finished. -/
def Sys.step (s : Sys) (t : Bool) : Option Sys :=
  let ops := if t then s.left1 else s.left0
  let rest (s1 : Sys) (tl : List SyncOp) : Sys :=
    if t then { s1 with left1 := tl } else { s1 with left0 := tl }
  match ops with
  | [] => none
  | SyncOp.Lock :: tl =>
    if s.writer.isNone && s.readers.isEmpty then some (rest { s with writer := some t } tl)
    else none
  | SyncOp.Unlock :: tl =>
    if s.writer = some t then some (rest { s with writer := none } tl) else none
  | SyncOp.RLock :: tl =>
    if s.writer.isNone then some (rest { s with readers := t :: s.readers } tl) else none
  | SyncOp.RUnlock :: tl =>
    if t ∈ s.readers then some (rest { s with readers := s.readers.erase t } tl) else none
  | SyncOp.ReadUsers :: tl =>
    some (rest { s with readDuringWrite := s.readDuringWrite || decide (s.writer = some (!t)) } tl)
  | SyncOp.WriteUsers :: tl => some (rest s tl)

/-- The steps of a schedule, one after the other. -/
def Sys.run (s : Sys) : List Bool → Option Sys
  | [] => some s
  | t :: ts => match s.step t with
    | none => none
    | some s1 => s1.run ts

/-- A reload (goroutine `false`) next to a gate check (goroutine `true`). -/
def Sys.reloadAndCheck (gate : List SyncOp) : Sys :=
  { left0 := reloadOps, left1 := gate, writer := none, readers := [],
    readDuringWrite := false }

/-! ## The extraction rule as the specification words it -/

/-- The token extraction rule in the words of the specification: when the
header value starts with the literal `"Bearer "` those seven characters are
stripped, otherwise the full header value is the token. -/
def specToken (h : String) : String :=
  if "Bearer ".data.isPrefixOf h.data then String.mk (h.data.drop 7) else h

/-! ## Lemmas on the library functions -/

theorem Contains_iff_mem (collection : List String) (element : String) :
    Contains collection element = true ↔ element ∈ collection := by
  induction collection with
  | nil => simp [Contains]
  | cons item rest ih =>
    by_cases h : item = element
    · simp [Contains, h]
    · have h1 : ¬ element = item := fun e => h e.symm
      simp [Contains, h, h1, ih]

theorem HasPrefix_iff (s p : String) :
    HasPrefix s p = true ↔ ∃ t : String, s = p ++ t := by
  constructor
  · intro h
    simp only [HasPrefix, Bool.and_eq_true, decide_eq_true_eq] at h
    refine ⟨String.mk (s.data.drop p.data.length), ?_⟩
    apply String.ext
    rw [String.data_append]
    conv_lhs => rw [← List.take_append_drop p.data.length s.data]
    rw [h.2]
  · rintro ⟨t, rfl⟩
    simp [HasPrefix, String.data_append]

theorem TrimPrefix_append (p t : String) : TrimPrefix (p ++ t) p = t := by
  have h : HasPrefix (p ++ t) p = true := (HasPrefix_iff _ _).2 ⟨t, rfl⟩
  simp [TrimPrefix, h, String.data_append]

theorem TrimPrefix_of_not_HasPrefix (s p : String) (h : HasPrefix s p = false) :
    TrimPrefix s p = s := by
  simp [TrimPrefix, h]

theorem checkAuth_forwarded_isSome (users : List String) (w : ResponseWriter) (r : Request) :
    (checkAuth users w r).forwarded.isSome = true ↔
      (r.Header.Get AuthHeader ≠ "" ∧
        TrimPrefix (r.Header.Get AuthHeader) TokenPrefix ∈ users) := by
  unfold checkAuth
  simp only [AuthHeader]
  by_cases h : r.Header.Get "Authorization" = ""
  · simp [h]
  · by_cases hc : Contains users (TrimPrefix (r.Header.Get "Authorization") TokenPrefix) = true
    · simp [h, hc, (Contains_iff_mem _ _).1 hc]
    · have hm := mt (Contains_iff_mem _ _).2 hc
      simp [h, hc, hm]

theorem checkAuth_reject (users : List String) (w : ResponseWriter) (r : Request)
    (h : r.Header.Get AuthHeader = "" ∨
      TrimPrefix (r.Header.Get AuthHeader) TokenPrefix ∉ users) :
    checkAuth users w r =
      { w := w.WriteHeader StatusForbidden, request := r, forwarded := none } := by
  unfold checkAuth
  simp only [AuthHeader] at h ⊢
  by_cases h0 : r.Header.Get "Authorization" = ""
  · simp [h0]
  · have hm : TrimPrefix (r.Header.Get "Authorization") TokenPrefix ∉ users := by
      rcases h with h | h
      · exact absurd h h0
      · exact h
    have hc : ¬ Contains users (TrimPrefix (r.Header.Get "Authorization") TokenPrefix) = true :=
      mt (Contains_iff_mem _ _).1 hm
    simp [h0, hc]

theorem checkAuth_accept (users : List String) (w : ResponseWriter) (r : Request)
    (h0 : r.Header.Get AuthHeader ≠ "")
    (hm : TrimPrefix (r.Header.Get AuthHeader) TokenPrefix ∈ users) :
    checkAuth users w r = { w := w, request := r, forwarded := some r } := by
  unfold checkAuth
  simp only [AuthHeader] at h0 hm ⊢
  have hc := (Contains_iff_mem _ _).2 hm
  simp [h0, hc]

theorem Header_Get_absent (h : Header) (key : String)
    (ha : h (CanonicalMIMEHeaderKey key) = none) : h.Get key = "" := by
  simp [Header.Get, ha]

theorem requestWithAuth_Get (h : String) : (requestWithAuth h).Header.Get AuthHeader = h := by
  have hk : CanonicalMIMEHeaderKey AuthHeader = "Authorization" := by decide
  simp [Header.Get, requestWithAuth, hk]

theorem TrimPrefix_eq_specToken (h : String) : TrimPrefix h TokenPrefix = specToken h := by
  have hp : HasPrefix h TokenPrefix = "Bearer ".data.isPrefixOf h.data := by
    rw [Bool.eq_iff_iff, HasPrefix_iff, List.isPrefixOf_iff_prefix]
    constructor
    · rintro ⟨t, rfl⟩
      exact ⟨t.data, by simp [TokenPrefix, String.data_append]⟩
    · rintro ⟨t, ht⟩
      exact ⟨String.mk t, String.ext (by simp [TokenPrefix, String.data_append, ← ht])⟩
  have hl : TokenPrefix.data.length = 7 := by decide
  simp only [TrimPrefix, specToken, hp, hl]

theorem TrimPrefix_eq_empty (h : String) (h0 : h ≠ "")
    (ht : TrimPrefix h TokenPrefix = "") : h = TokenPrefix := by
  by_cases hp : HasPrefix h TokenPrefix = true
  · obtain ⟨t, rfl⟩ := (HasPrefix_iff _ _).1 hp
    rw [TrimPrefix_append] at ht
    subst ht
    exact String.ext (by simp [String.data_append])
  · rw [TrimPrefix_of_not_HasPrefix h _ (by simpa using hp)] at ht
    exact absurd ht h0

theorem length_pos_iff_ne_empty (s : String) : s.length > 0 ↔ s ≠ "" := by
  cases s with
  | mk l =>
    cases l with
    | nil => simp [String.length]
    | cons c cs =>
      simp only [String.length, List.length_cons, gt_iff_lt, Nat.succ_pos, true_iff]
      intro h
      exact List.cons_ne_nil c cs (congrArg String.data h)

theorem canonical_auth_ne_org :
    CanonicalMIMEHeaderKey AuthHeader ≠ CanonicalMIMEHeaderKey OrgHeader := by
  decide

theorem Header_Get_Set (h : Header) (key value : String) : (h.Set key value).Get key = value := by
  simp [Header.Get, Header.Set]

theorem rewriteCredentials_Header (u : URL) (cfg : Config) (r : Request) (k : String) :
    (rewriteCredentials u cfg r).Header k =
      if cfg.org ≠ "" ∧ k = CanonicalMIMEHeaderKey OrgHeader then some [cfg.org]
      else if cfg.token ≠ "" ∧ k = CanonicalMIMEHeaderKey AuthHeader then
        some [TokenPrefix ++ cfg.token]
      else r.Header k := by
  unfold rewriteCredentials
  by_cases ht : cfg.token = "" <;> by_cases ho : cfg.org = "" <;>
    simp [ht, ho, length_pos_iff_ne_empty, Header.Set]

theorem rewriteCredentials_fields (u : URL) (cfg : Config) (r : Request) :
    (rewriteCredentials u cfg r).Host = u.Host ∧
    (rewriteCredentials u cfg r).Method = r.Method ∧
    (rewriteCredentials u cfg r).URL = r.URL ∧
    (rewriteCredentials u cfg r).Body = r.Body := by
  unfold rewriteCredentials
  by_cases ht : cfg.token.length > 0 <;> by_cases ho : cfg.org.length > 0 <;> simp [ht, ho]

theorem onConfigChange_Write (ev : Event) (file : Except String Config) (s : State)
    (h : ev.Op = Write) : onConfigChange ev file s = .running s := by
  simp [onConfigChange, h]

theorem onConfigChange_reload (ev : Event) (cfg : Config) (s : State) (h : ev.Op ≠ Write) :
    onConfigChange ev (.ok cfg) s =
      .running (logPrintf ("config changed, user amount: " ++ toString cfg.users.length)
        (loadUsers { s with config := cfg })) := by
  simp [onConfigChange, h, ReadInConfig, loadUsers]

theorem onConfigChange_failure (ev : Event) (err : String) (s : State) (h : ev.Op ≠ Write) :
    onConfigChange ev (.error err) s = .exited (logPrintf ("read config failed: " ++ err) s) := by
  simp [onConfigChange, h, ReadInConfig, logFatal]

/-! ## The authorization gate -/

/-- C1, as the code has it: the gate accepts exactly when the header value is
not empty and the extracted token is an element of the user list.  Put in terms
of the token alone: it accepts exactly when the token is in the list and either
the token is not empty or the header value is the bare prefix `"Bearer "`.  An
empty header value is rejected whatever the list holds. -/
theorem checkAuth_accepts_iff (users : List String) (w : ResponseWriter) (r : Request) :
    ((checkAuth users w r).forwarded.isSome = true ↔
      (r.Header.Get AuthHeader ≠ "" ∧
        TrimPrefix (r.Header.Get AuthHeader) TokenPrefix ∈ users)) ∧
    ((checkAuth users w r).forwarded.isSome = true ↔
      (TrimPrefix (r.Header.Get AuthHeader) TokenPrefix ∈ users ∧
        (TrimPrefix (r.Header.Get AuthHeader) TokenPrefix ≠ "" ∨
          r.Header.Get AuthHeader = TokenPrefix))) ∧
    (r.Header.Get AuthHeader = "" → (checkAuth users w r).forwarded.isSome = false) := by
  refine ⟨checkAuth_forwarded_isSome users w r, ?_, ?_⟩
  · rw [checkAuth_forwarded_isSome]
    constructor
    · rintro ⟨h0, hm⟩
      refine ⟨hm, ?_⟩
      by_cases ht : TrimPrefix (r.Header.Get AuthHeader) TokenPrefix = ""
      · exact Or.inr (TrimPrefix_eq_empty _ h0 ht)
      · exact Or.inl ht
    · rintro ⟨hm, hne⟩
      refine ⟨?_, hm⟩
      intro h0
      rcases hne with hne | hne
      · rw [h0] at hne
        exact hne (by decide)
      · rw [h0] at hne
        exact absurd hne (by decide)
  · intro h0
    rw [checkAuth_reject users w r (Or.inl h0)]
    rfl

/-- The amended C1 at a concrete input: with the user list `["", "abc123"]` the
header values `"Bearer abc123"` and `"Bearer "` are accepted and the empty
header value is rejected. -/
theorem checkAuth_accepts_iff_witness :
    (checkAuth ["", "abc123"] ResponseWriter.fresh
        (requestWithAuth "Bearer abc123")).forwarded.isSome = true ∧
    (checkAuth ["", "abc123"] ResponseWriter.fresh
        (requestWithAuth "Bearer ")).forwarded.isSome = true ∧
    (checkAuth ["", "abc123"] ResponseWriter.fresh
        (requestWithAuth "")).forwarded.isSome = false := by
  refine ⟨?_, ?_, ?_⟩
  · exact (checkAuth_accepts_iff _ ResponseWriter.fresh (requestWithAuth "Bearer abc123")).1.2
      (by rw [requestWithAuth_Get]; decide)
  · exact (checkAuth_accepts_iff _ ResponseWriter.fresh (requestWithAuth "Bearer ")).1.2
      (by rw [requestWithAuth_Get]; decide)
  · exact (checkAuth_accepts_iff _ ResponseWriter.fresh (requestWithAuth "")).2.2
      (by rw [requestWithAuth_Get])

/-- C1 as stated fails: with the user list `[""]` and the header value
`"Bearer "` the extracted token is the empty string and the gate accepts, so
acceptance is not equivalent to the token being non-empty and in the list. -/
theorem checkAuth_empty_token_accepted :
    (requestWithAuth "Bearer ").Header.Get AuthHeader = "Bearer " ∧
    TrimPrefix ((requestWithAuth "Bearer ").Header.Get AuthHeader) TokenPrefix = "" ∧
    (checkAuth [""] ResponseWriter.fresh (requestWithAuth "Bearer ")).forwarded.isSome = true ∧
    ¬ ((checkAuth [""] ResponseWriter.fresh (requestWithAuth "Bearer ")).forwarded.isSome = true ↔
      (TrimPrefix ((requestWithAuth "Bearer ").Header.Get AuthHeader) TokenPrefix ≠ "" ∧
        TrimPrefix ((requestWithAuth "Bearer ").Header.Get AuthHeader) TokenPrefix ∈ [""])) := by
  decide

/-- C2: for a non-empty header value the gate decides by looking up, in the
user list, the token that the specification describes (the value without its
literal, case-sensitive `"Bearer "` prefix, removed once, or the whole value
when it does not start with that prefix), and that token is what
`strings.TrimPrefix` computes; for the empty header value the gate rejects
whatever the user list is. -/
theorem checkAuth_looks_up_specToken (users : List String) (w : ResponseWriter) (r : Request) :
    (r.Header.Get AuthHeader ≠ "" →
      checkAuth users w r =
        if specToken (r.Header.Get AuthHeader) ∈ users then
          { w := w, request := r, forwarded := some r }
        else { w := w.WriteHeader StatusForbidden, request := r, forwarded := none }) ∧
    (r.Header.Get AuthHeader = "" → ∀ others : List String,
      checkAuth others w r =
        { w := w.WriteHeader StatusForbidden, request := r, forwarded := none }) ∧
    (∀ h : String, TrimPrefix h TokenPrefix = specToken h) ∧
    (∀ t : String, TrimPrefix ("Bearer " ++ t) TokenPrefix = t) ∧
    (∀ h : String, HasPrefix h "Bearer " = false → TrimPrefix h TokenPrefix = h) ∧
    TrimPrefix "Bearer abc123" TokenPrefix = "abc123" ∧
    TrimPrefix "abc123" TokenPrefix = "abc123" ∧
    TrimPrefix "Bearer Bearer x" TokenPrefix = "Bearer x" ∧
    TrimPrefix "bearer abc123" TokenPrefix = "bearer abc123" ∧
    TrimPrefix "BEARER abc123" TokenPrefix = "BEARER abc123" := by
  refine ⟨?_, ?_, TrimPrefix_eq_specToken, ?_, ?_, by decide, by decide, by decide, by decide,
    by decide⟩
  · intro h0
    rw [← TrimPrefix_eq_specToken]
    by_cases hm : TrimPrefix (r.Header.Get AuthHeader) TokenPrefix ∈ users
    · rw [if_pos hm, checkAuth_accept users w r h0 hm]
    · rw [if_neg hm, checkAuth_reject users w r (Or.inr hm)]
  · intro h0 others
    exact checkAuth_reject others w r (Or.inl h0)
  · intro t
    exact TrimPrefix_append TokenPrefix t
  · intro h hp
    exact TrimPrefix_of_not_HasPrefix h TokenPrefix hp

/-- C2 at concrete inputs: `"Bearer abc123"` and `"abc123"` are both accepted
against the user list `["abc123"]`, and the empty header value is rejected
even against a list that holds the empty string. -/
theorem checkAuth_looks_up_specToken_witness :
    (checkAuth ["abc123"] ResponseWriter.fresh (requestWithAuth "Bearer abc123")).forwarded.isSome
      = true ∧
    (checkAuth ["abc123"] ResponseWriter.fresh (requestWithAuth "abc123")).forwarded.isSome
      = true ∧
    (checkAuth [""] ResponseWriter.fresh (requestWithAuth "")).forwarded.isSome = false := by
  refine ⟨?_, ?_, ?_⟩
  · rw [(checkAuth_looks_up_specToken ["abc123"] ResponseWriter.fresh
      (requestWithAuth "Bearer abc123")).1 (by rw [requestWithAuth_Get]; decide),
      requestWithAuth_Get, if_pos (by decide)]
    rfl
  · rw [(checkAuth_looks_up_specToken ["abc123"] ResponseWriter.fresh
      (requestWithAuth "abc123")).1 (by rw [requestWithAuth_Get]; decide),
      requestWithAuth_Get, if_pos (by decide)]
    rfl
  · rw [(checkAuth_looks_up_specToken [] ResponseWriter.fresh
      (requestWithAuth "")).2.1 (by rw [requestWithAuth_Get]) [""]]
    rfl

/-- C3: when the `Authorization` header is absent, or its value is empty, or
the extracted token is not in the user list, the gate does not call
`proxy.ServeHTTP`, leaves the response as `WriteHeader(403)` leaves it (status
403 on a response not yet started), adds nothing to the body or the response
headers, and leaves the request alone. -/
theorem checkAuth_rejects_with_403 (users : List String) (w : ResponseWriter) (r : Request)
    (h : r.Header (CanonicalMIMEHeaderKey AuthHeader) = none ∨
      r.Header.Get AuthHeader = "" ∨
      TrimPrefix (r.Header.Get AuthHeader) TokenPrefix ∉ users) :
    (checkAuth users w r).forwarded = none ∧
    (checkAuth users w r).w = w.WriteHeader 403 ∧
    (checkAuth users w r).w.body = w.body ∧
    (checkAuth users w r).w.header = w.header ∧
    (w.wroteHeader = false →
      (checkAuth users w r).w.wroteHeader = true ∧ (checkAuth users w r).w.status = 403) ∧
    (w = ResponseWriter.fresh →
      (checkAuth users w r).w = { wroteHeader := true, status := 403, header := [], body := "" }) := by
  have h1 : r.Header.Get AuthHeader = "" ∨
      TrimPrefix (r.Header.Get AuthHeader) TokenPrefix ∉ users := by
    rcases h with h | h | h
    · exact Or.inl (Header_Get_absent _ _ h)
    · exact Or.inl h
    · exact Or.inr h
  rw [checkAuth_reject users w r h1]
  refine ⟨rfl, rfl, ?_, ?_, ?_, ?_⟩
  · simp only [ResponseWriter.WriteHeader]
    split <;> rfl
  · simp only [ResponseWriter.WriteHeader]
    split <;> rfl
  · intro hw
    simp [ResponseWriter.WriteHeader, hw, StatusForbidden]
  · intro hw
    subst hw
    rfl

/-- C3 at concrete inputs: a token that is not in the list, an empty header
value and a request without the header each end in a bare 403 and no call of
the proxy. -/
theorem checkAuth_rejects_with_403_witness :
    ((checkAuth ["abc123"] ResponseWriter.fresh (requestWithAuth "Bearer nope")).forwarded.isSome
        = false ∧
      (checkAuth ["abc123"] ResponseWriter.fresh (requestWithAuth "Bearer nope")).w =
        { wroteHeader := true, status := 403, header := [], body := "" }) ∧
    (checkAuth ["abc123"] ResponseWriter.fresh (requestWithAuth "")).w =
        { wroteHeader := true, status := 403, header := [], body := "" } ∧
    (checkAuth ["abc123"] ResponseWriter.fresh
        { requestWithAuth "" with Header := fun _ => none }).w =
        { wroteHeader := true, status := 403, header := [], body := "" } := by
  refine ⟨⟨?_, ?_⟩, ?_, ?_⟩
  · rw [(checkAuth_rejects_with_403 ["abc123"] ResponseWriter.fresh (requestWithAuth "Bearer nope")
      (Or.inr (Or.inr (by rw [requestWithAuth_Get]; decide)))).1]
    rfl
  · exact (checkAuth_rejects_with_403 ["abc123"] ResponseWriter.fresh
      (requestWithAuth "Bearer nope")
      (Or.inr (Or.inr (by rw [requestWithAuth_Get]; decide)))).2.2.2.2.2 rfl
  · exact (checkAuth_rejects_with_403 ["abc123"] ResponseWriter.fresh (requestWithAuth "")
      (Or.inr (Or.inl (by rw [requestWithAuth_Get])))).2.2.2.2.2 rfl
  · exact (checkAuth_rejects_with_403 ["abc123"] ResponseWriter.fresh
      { requestWithAuth "" with Header := fun _ => none } (Or.inl rfl)).2.2.2.2.2 rfl

/-- C6: when the header value is not empty and the extracted token is in the
user list, the gate passes to `proxy.ServeHTTP` the very request it received
(method, URL, host, headers with the caller's `Authorization` value, body) and
leaves the response writer exactly as it received it; and on every path,
accepting or rejecting, the request is as it was when the gate returns. -/
theorem checkAuth_delegates_unmodified (users : List String) (w : ResponseWriter) (r : Request)
    (h0 : r.Header.Get AuthHeader ≠ "")
    (hm : TrimPrefix (r.Header.Get AuthHeader) TokenPrefix ∈ users) :
    (checkAuth users w r).forwarded = some r ∧
    (checkAuth users w r).w = w ∧
    (checkAuth users w r).request = r ∧
    (∀ (others : List String) (w1 : ResponseWriter) (r1 : Request),
      (checkAuth others w1 r1).request = r1 ∧
      ((checkAuth others w1 r1).forwarded = none ∨ (checkAuth others w1 r1).forwarded = some r1)) := by
  rw [checkAuth_accept users w r h0 hm]
  refine ⟨rfl, rfl, rfl, ?_⟩
  intro others w1 r1
  by_cases h : r1.Header.Get AuthHeader ≠ "" ∧
      TrimPrefix (r1.Header.Get AuthHeader) TokenPrefix ∈ others
  · rw [checkAuth_accept others w1 r1 h.1 h.2]
    exact ⟨rfl, Or.inr rfl⟩
  · rw [checkAuth_reject others w1 r1 (by
      by_cases h1 : r1.Header.Get AuthHeader = ""
      · exact Or.inl h1
      · exact Or.inr (fun hm1 => h ⟨h1, hm1⟩))]
    exact ⟨rfl, Or.inl rfl⟩

/-- C6 at a concrete input: the request with `Authorization: Bearer abc123`
reaches the proxy with that header value still in place and the response
writer untouched. -/
theorem checkAuth_delegates_unmodified_witness :
    ((checkAuth ["abc123"] ResponseWriter.fresh (requestWithAuth "Bearer abc123")).forwarded.map
        (fun q => (q.Method, q.URL, q.Host, q.Header.Get AuthHeader, q.Body))) =
      some ("GET", { Scheme := "", Host := "", Path := "/v1/models", RawQuery := "" },
        "proxy.local", "Bearer abc123", "") ∧
    (checkAuth ["abc123"] ResponseWriter.fresh (requestWithAuth "Bearer abc123")).w =
      ResponseWriter.fresh := by
  have h := checkAuth_delegates_unmodified ["abc123"] ResponseWriter.fresh
    (requestWithAuth "Bearer abc123") (by rw [requestWithAuth_Get]; decide)
    (by rw [requestWithAuth_Get]; decide)
  refine ⟨?_, h.2.1⟩
  rw [h.1]
  simp only [Option.map_some', requestWithAuth_Get]
  rfl

/-! ## The director -/

/-- C4: when the upstream URL parses, `NewProxy` returns a director, and for
every configuration read at call time, every base director and every inbound
request the rewritten request has the host of the upstream URL; with a
non-empty configured token its `Authorization` header is the single value
`"Bearer "` followed by the token; with a non-empty configured organization its
`OpenAI-Organization` header is the single value of the organization. -/
theorem NewProxy_director_sets_credentials (urlParse : String → Except String URL)
    (singleHostDirector : URL → Request → Request) (targetHost : String) (u : URL)
    (hp : urlParse targetHost = .ok u) :
    ∃ director : Config → Request → Request,
      NewProxy urlParse singleHostDirector targetHost = .ok director ∧
      ∀ (cfg : Config) (r : Request),
        (director cfg r).Host = u.Host ∧
        (cfg.token ≠ "" →
          (director cfg r).Header.Get AuthHeader = "Bearer " ++ cfg.token ∧
          (director cfg r).Header (CanonicalMIMEHeaderKey AuthHeader)
            = some ["Bearer " ++ cfg.token]) ∧
        (cfg.org ≠ "" →
          (director cfg r).Header.Get OrgHeader = cfg.org ∧
          (director cfg r).Header (CanonicalMIMEHeaderKey OrgHeader) = some [cfg.org]) := by
  refine ⟨Director (singleHostDirector u) u, ?_, ?_⟩
  · simp [NewProxy, hp]
  · intro cfg r
    refine ⟨(rewriteCredentials_fields u cfg _).1, ?_, ?_⟩
    · intro ht
      have hk : (Director (singleHostDirector u) u cfg r).Header
          (CanonicalMIMEHeaderKey AuthHeader) = some ["Bearer " ++ cfg.token] := by
        unfold Director
        rw [rewriteCredentials_Header]
        simp [canonical_auth_ne_org, ht, TokenPrefix]
      exact ⟨by simp [Header.Get, hk], hk⟩
    · intro ho
      have hk : (Director (singleHostDirector u) u cfg r).Header
          (CanonicalMIMEHeaderKey OrgHeader) = some [cfg.org] := by
        unfold Director
        rw [rewriteCredentials_Header]
        simp [ho]
      exact ⟨by simp [Header.Get, hk], hk⟩

/-- C4 at a concrete input: a request that arrives with the caller's own
`Authorization` value and host leaves the director of `NewProxy(OpenAIHost)`
with host `api.openai.com`, `Authorization: Bearer sk-upstream` and
`OpenAI-Organization: org-1`. -/
theorem NewProxy_director_sets_credentials_witness :
    ∃ director : Config → Request → Request,
      NewProxy parseUpstream pointAt OpenAIHost = .ok director ∧
      (director { users := [], port := "", token := "sk-upstream", org := "org-1" }
        (requestWithAuth "Bearer abc123")).Host = "api.openai.com" ∧
      (director { users := [], port := "", token := "sk-upstream", org := "org-1" }
        (requestWithAuth "Bearer abc123")).Header.Get AuthHeader = "Bearer sk-upstream" ∧
      (director { users := [], port := "", token := "sk-upstream", org := "org-1" }
        (requestWithAuth "Bearer abc123")).Header.Get OrgHeader = "org-1" := by
  obtain ⟨director, hd, h⟩ :=
    NewProxy_director_sets_credentials parseUpstream pointAt OpenAIHost upstreamURL (by simp [parseUpstream])
  refine ⟨director, hd, ?_⟩
  have h1 := h { users := [], port := "", token := "sk-upstream", org := "org-1" }
    (requestWithAuth "Bearer abc123")
  exact ⟨h1.1, (h1.2.1 (by decide)).1, (h1.2.2 (by decide)).1⟩

/-- C5: the statements of the director after the base director call leave the
method, the URL (path and query included) and the body as they were, leave
every header other than `Authorization` and `OpenAI-Organization` as it was,
leave `Authorization` as it was when the configured token is empty, and leave
`OpenAI-Organization` as it was when the configured organization is empty; the
director is that step applied to what the base director produced. -/
theorem rewriteCredentials_frame (u : URL) (cfg : Config) (r : Request) :
    (rewriteCredentials u cfg r).Method = r.Method ∧
    (rewriteCredentials u cfg r).URL = r.URL ∧
    (rewriteCredentials u cfg r).Body = r.Body ∧
    (∀ k : String, k ≠ CanonicalMIMEHeaderKey AuthHeader → k ≠ CanonicalMIMEHeaderKey OrgHeader →
      (rewriteCredentials u cfg r).Header k = r.Header k) ∧
    (cfg.token = "" →
      (rewriteCredentials u cfg r).Header (CanonicalMIMEHeaderKey AuthHeader)
        = r.Header (CanonicalMIMEHeaderKey AuthHeader) ∧
      (rewriteCredentials u cfg r).Header.Get AuthHeader = r.Header.Get AuthHeader) ∧
    (cfg.org = "" →
      (rewriteCredentials u cfg r).Header (CanonicalMIMEHeaderKey OrgHeader)
        = r.Header (CanonicalMIMEHeaderKey OrgHeader) ∧
      (rewriteCredentials u cfg r).Header.Get OrgHeader = r.Header.Get OrgHeader) ∧
    (∀ base : Request → Request,
      Director base u cfg r = rewriteCredentials u cfg (base r)) := by
  obtain ⟨_, hm, hu, hb⟩ := rewriteCredentials_fields u cfg r
  refine ⟨hm, hu, hb, ?_, ?_, ?_, fun _ => rfl⟩
  · intro k ha ho
    rw [rewriteCredentials_Header]
    simp [ha, ho]
  · intro ht
    have hk : (rewriteCredentials u cfg r).Header (CanonicalMIMEHeaderKey AuthHeader)
        = r.Header (CanonicalMIMEHeaderKey AuthHeader) := by
      rw [rewriteCredentials_Header]
      simp [ht, canonical_auth_ne_org]
    exact ⟨hk, by simp only [Header.Get, hk]⟩
  · intro ho
    have hk : (rewriteCredentials u cfg r).Header (CanonicalMIMEHeaderKey OrgHeader)
        = r.Header (CanonicalMIMEHeaderKey OrgHeader) := by
      rw [rewriteCredentials_Header]
      simp [ho, Ne.symm canonical_auth_ne_org]
    exact ⟨hk, by simp only [Header.Get, hk]⟩

/-- C5 at a concrete input: with no token and no organization configured the
caller's `Authorization` value passes through, and no `OpenAI-Organization`
header appears. -/
theorem rewriteCredentials_frame_witness :
    (rewriteCredentials upstreamURL { users := [], port := "", token := "", org := "" }
      (requestWithAuth "Bearer abc123")).Header.Get AuthHeader = "Bearer abc123" ∧
    (rewriteCredentials upstreamURL { users := [], port := "", token := "", org := "" }
      (requestWithAuth "Bearer abc123")).Header (CanonicalMIMEHeaderKey OrgHeader) = none := by
  have h := rewriteCredentials_frame upstreamURL
    { users := [], port := "", token := "", org := "" } (requestWithAuth "Bearer abc123")
  refine ⟨?_, ?_⟩
  · rw [(h.2.2.2.2.1 rfl).2, requestWithAuth_Get]
  · rw [(h.2.2.2.2.2.1 rfl).1]
    decide

/-! ## Loading and reloading the user list -/

/-- C7: the assignment `users = viper.GetStringSlice("users")` made twice leaves
the state that making it once leaves, a reload callback run twice on the same
configuration leaves the user list that one run leaves, and after the
assignment (or the start-up load, or a reload) the user list and the answer of
the gate are those of the new list, whatever the list was before. -/
theorem users_replace_idempotent (cfg : Config) (P Q : List String) (logP logQ : List String)
    (ev1 ev2 : Event) (h1 : ev1.Op ≠ Write) (h2 : ev2.Op ≠ Write)
    (w : ResponseWriter) (r : Request) :
    loadUsers (loadUsers { config := cfg, users := P, log := logP })
      = loadUsers { config := cfg, users := P, log := logP } ∧
    (loadUsers { config := cfg, users := P, log := logP }).users = cfg.users ∧
    checkAuth (loadUsers { config := cfg, users := P, log := logP }).users w r
      = checkAuth (loadUsers { config := cfg, users := Q, log := logQ }).users w r ∧
    (∃ s1 s2 : State,
      onConfigChange ev1 (.ok cfg) { config := cfg, users := P, log := logP } = .running s1 ∧
      onConfigChange ev2 (.ok cfg) s1 = .running s2 ∧
      s1.users = cfg.users ∧ s2.users = s1.users ∧ s2.config = s1.config ∧
      checkAuth s2.users w r = checkAuth s1.users w r) ∧
    (∀ old : Config,
      (onConfigChange ev1 (.ok cfg) { config := old, users := P, log := logP }).users
        = some cfg.users ∧
      (init (.ok cfg) { config := old, users := P, log := logP }).users = some cfg.users) := by
  refine ⟨rfl, rfl, rfl, ?_, ?_⟩
  · refine ⟨_, _, onConfigChange_reload ev1 cfg _ h1, onConfigChange_reload ev2 cfg _ h2,
      rfl, rfl, rfl, rfl⟩
  · intro old
    rw [onConfigChange_reload ev1 cfg _ h1]
    exact ⟨rfl, rfl⟩

/-- C7 at a concrete input: two reloads of a configuration with the users
`["abc123"]`, on a state that held `["old"]`, leave `["abc123"]`. -/
theorem users_replace_idempotent_witness :
    ∃ s1 s2 : State,
      onConfigChange { Name := "config.toml", Op := Create }
        (.ok { users := ["abc123"], port := "", token := "", org := "" })
        { config := { users := ["abc123"], port := "", token := "", org := "" },
          users := ["old"], log := [] } = .running s1 ∧
      onConfigChange { Name := "config.toml", Op := Chmod }
        (.ok { users := ["abc123"], port := "", token := "", org := "" }) s1 = .running s2 ∧
      s1.users = ["abc123"] ∧ s2.users = ["abc123"] := by
  obtain ⟨s1, s2, a, b, c, d, _, _⟩ := (users_replace_idempotent
    { users := ["abc123"], port := "", token := "", org := "" } ["old"] [] [] []
    { Name := "config.toml", Op := Create } { Name := "config.toml", Op := Chmod }
    (by decide) (by decide) ResponseWriter.fresh (requestWithAuth "")).2.2.2.1
  exact ⟨s1, s2, a, b, c, d.trans c⟩

/-- C8, as the code has it: when the read made by the change callback fails (the
callback reads for an event whose `Op` is not `Write`), the failure is logged
and the process exits through `log.Fatal`, just as a read failure in `init`
does; the user list has not been replaced at that point.  A callback for an
event whose `Op` is `Write` reads nothing and returns with the state as it
was. -/
theorem onConfigChange_read_failure_is_fatal (ev : Event) (err : String) (s : State)
    (h : ev.Op ≠ Write) :
    onConfigChange ev (.error err) s = .exited (logPrintf ("read config failed: " ++ err) s) ∧
    init (.error err) s = .exited (logPrintf ("read config failed: " ++ err) s) ∧
    (logPrintf ("read config failed: " ++ err) s).users = s.users ∧
    (onConfigChange ev (.error err) s).users = none ∧
    (∀ ev1 : Event, ev1.Op = Write → onConfigChange ev1 (.error err) s = .running s) := by
  refine ⟨onConfigChange_failure ev err s h, rfl, rfl, ?_, ?_⟩
  · rw [onConfigChange_failure ev err s h]
    rfl
  · intro ev1 h1
    exact onConfigChange_Write ev1 _ s h1

/-- The amended C8 at a concrete input: a `Remove` event with an unreadable file
ends the process. -/
theorem onConfigChange_read_failure_is_fatal_witness :
    onConfigChange { Name := "config.toml", Op := Remove } (.error "no such file")
        { config := { users := ["abc123"], port := "", token := "", org := "" },
          users := ["abc123"], log := [] } =
      Outcome.exited
        { config := { users := ["abc123"], port := "", token := "", org := "" },
          users := ["abc123"], log := ["read config failed: no such file"] } :=
  (onConfigChange_read_failure_is_fatal { Name := "config.toml", Op := Remove } "no such file"
    { config := { users := ["abc123"], port := "", token := "", org := "" },
      users := ["abc123"], log := [] } (by decide)).1

/-- C8 as stated fails: for a `Create` event and a configuration file that
cannot be parsed, the callback does not return to a running process that keeps
the last user list; the process has exited. -/
theorem onConfigChange_failure_not_ignored :
    (onConfigChange { Name := "config.toml", Op := Create } (.error "toml: invalid syntax")
        { config := { users := ["abc123"], port := "", token := "", org := "" },
          users := ["abc123"], log := [] }).users = none ∧
    ¬ ∃ s1 : State,
      onConfigChange { Name := "config.toml", Op := Create } (.error "toml: invalid syntax")
        { config := { users := ["abc123"], port := "", token := "", org := "" },
          users := ["abc123"], log := [] } = .running s1 ∧ s1.users = ["abc123"] := by
  refine ⟨by decide, ?_⟩
  rintro ⟨s1, h, _⟩
  rw [onConfigChange_failure _ _ _ (by decide)] at h
  cases h

/-- C10, as the code has it: the callback acts exactly when `Op` differs from
`Write`.  For `Op` equal to `Write` it returns with the state as it was,
whatever the file holds.  For any other `Op` it reads the configuration: a
readable configuration becomes viper's configuration, its `users` replace the
user list and one line is logged, and a failed read ends in `log.Fatal` with
the user list not replaced.  So the user list is replaced by the list of the
file iff `Op` is not `Write` and the file can be read. -/
theorem onConfigChange_reloads_iff_not_Write (ev : Event) (s : State) :
    (ev.Op = Write → ∀ file : Except String Config, onConfigChange ev file s = .running s) ∧
    (ev.Op ≠ Write → ∀ cfg : Config,
      onConfigChange ev (.ok cfg) s =
        .running { config := cfg, users := cfg.users,
                   log := s.log ++ ["config changed, user amount: " ++
                     toString cfg.users.length] }) ∧
    (ev.Op ≠ Write → ∀ err : String,
      onConfigChange ev (.error err) s =
        .exited { s with log := s.log ++ ["read config failed: " ++ err] }) ∧
    (∀ cfg : Config, onConfigChange ev (.ok cfg) s ≠ .running s ↔ ev.Op ≠ Write) ∧
    (∀ cfg : Config, (onConfigChange ev (.ok cfg) s).users =
      some (if ev.Op = Write then s.users else cfg.users)) ∧
    (∀ file : Except String Config,
      (∃ cfg : Config, file = .ok cfg ∧
        onConfigChange ev file s =
          .running { config := cfg, users := cfg.users,
                     log := s.log ++ ["config changed, user amount: " ++
                       toString cfg.users.length] }) ↔
      (ev.Op ≠ Write ∧ ∃ cfg : Config, file = .ok cfg)) := by
  refine ⟨fun h file => onConfigChange_Write ev file s h,
    fun h cfg => onConfigChange_reload ev cfg s h,
    fun h err => onConfigChange_failure ev err s h, ?_, ?_, ?_⟩
  · intro cfg
    constructor
    · intro hne hw
      exact hne (onConfigChange_Write ev _ s hw)
    · intro hw heq
      rw [onConfigChange_reload ev cfg s hw] at heq
      have hl := congrArg (fun o => match o with
        | Outcome.running t => t.log.length
        | Outcome.exited t => t.log.length) heq
      simp [logPrintf, loadUsers] at hl
  · intro cfg
    by_cases hw : ev.Op = Write
    · rw [onConfigChange_Write ev _ s hw, if_pos hw]
      rfl
    · rw [onConfigChange_reload ev cfg s hw, if_neg hw]
      rfl
  · intro file
    constructor
    · rintro ⟨cfg, rfl, heq⟩
      refine ⟨?_, cfg, rfl⟩
      intro hw
      rw [onConfigChange_Write ev _ s hw] at heq
      have hl := congrArg (fun o => match o with
        | Outcome.running t => t.log.length
        | Outcome.exited t => t.log.length) heq
      simp at hl
    · rintro ⟨hw, cfg, rfl⟩
      exact ⟨cfg, rfl, onConfigChange_reload ev cfg s hw⟩

/-- C10 as stated fails: for a `Create` event, whose `Op` is not `Write`, and
a configuration file that cannot be parsed, the callback reads the
configuration but does not replace the user list: it ends in `log.Fatal` with
the list `["old"]` still in place, so "reads and replaces" is not equivalent to
`Op` differing from `Write`. -/
theorem onConfigChange_Create_unreadable_keeps_users :
    ({ Name := "config.toml", Op := Create } : Event).Op ≠ Write ∧
    onConfigChange { Name := "config.toml", Op := Create } (.error "toml: invalid syntax")
        { config := { users := ["old"], port := "", token := "", org := "" },
          users := ["old"], log := [] } =
      Outcome.exited
        { config := { users := ["old"], port := "", token := "", org := "" },
          users := ["old"], log := ["read config failed: toml: invalid syntax"] } ∧
    ¬ ((∃ s1 : State,
        onConfigChange { Name := "config.toml", Op := Create } (.error "toml: invalid syntax")
          { config := { users := ["old"], port := "", token := "", org := "" },
            users := ["old"], log := [] } = .running s1) ↔
      ({ Name := "config.toml", Op := Create } : Event).Op ≠ Write) := by
  have hx := onConfigChange_failure { Name := "config.toml", Op := Create }
    "toml: invalid syntax"
    { config := { users := ["old"], port := "", token := "", org := "" },
      users := ["old"], log := [] } (by decide)
  refine ⟨by decide, by rw [hx]; rfl, ?_⟩
  intro hiff
  obtain ⟨s1, h⟩ := hiff.2 (by decide)
  rw [hx] at h
  cases h

/-- C10 at concrete inputs: a `Write` event leaves the user list `["old"]` in
place although the file now lists `["new"]`; a `Create` event and an event
with `Op` equal to `Write|Chmod` both install `["new"]`. -/
theorem onConfigChange_reloads_iff_not_Write_witness :
    (onConfigChange { Name := "config.toml", Op := Write }
        (.ok { users := ["new"], port := "", token := "", org := "" })
        { config := { users := ["old"], port := "", token := "", org := "" },
          users := ["old"], log := [] }).users = some ["old"] ∧
    (onConfigChange { Name := "config.toml", Op := Create }
        (.ok { users := ["new"], port := "", token := "", org := "" })
        { config := { users := ["old"], port := "", token := "", org := "" },
          users := ["old"], log := [] }).users = some ["new"] ∧
    (onConfigChange { Name := "config.toml", Op := Write ||| Chmod }
        (.ok { users := ["new"], port := "", token := "", org := "" })
        { config := { users := ["old"], port := "", token := "", org := "" },
          users := ["old"], log := [] }).users = some ["new"] := by
  refine ⟨?_, ?_, ?_⟩
  · rw [(onConfigChange_reloads_iff_not_Write { Name := "config.toml", Op := Write } _).1 rfl]
    rfl
  · rw [(onConfigChange_reloads_iff_not_Write { Name := "config.toml", Op := Create } _).2.1
      (by decide)]
    rfl
  · rw [(onConfigChange_reloads_iff_not_Write { Name := "config.toml", Op := Write ||| Chmod }
      _).2.1 (by decide)]
    rfl

/-! ## The locking discipline -/

/-- C9, the part on the lock: `checkAuth` reads `users` once and holds no lock
when it does (the reload block too reads `len(users)` after its unlock), so
there is a schedule in which the gate reads `users` while the reloading
goroutine is inside its write-locked section; a gate that took the read lock
around its read would have no unguarded read and would be blocked in that
schedule. -/
theorem checkAuth_reads_users_without_lock :
    unguardedReads false checkAuthOps = 1 ∧
    unguardedReads false reloadOps = 1 ∧
    ((Sys.reloadAndCheck checkAuthOps).run [false, true]).map (fun s => s.readDuringWrite)
      = some true ∧
    unguardedReads false [SyncOp.RLock, SyncOp.ReadUsers, SyncOp.RUnlock] = 0 ∧
    (Sys.reloadAndCheck [SyncOp.RLock, SyncOp.ReadUsers, SyncOp.RUnlock]).run [false, true]
      = none := by
  decide

end GptProxy
